import Mathlib

/-!
Verification development for the prompt-registry core
(`src/prompt_registry/template.py` and `src/prompt_registry/registry.py`).

The Python source is shallowly embedded:

* Python `dict`s (which iterate in insertion order and have unique keys)
  are modelled as association lists `List (String × α)` in insertion
  order; the unique-key representation invariant of a `dict` is assumed
  as a `Nodup` hypothesis where a proof needs it.
* Variable values and defaults are modelled as `String` (the values the
  templating engine interpolates); an absent `default` and an explicit
  `null` default are both `none`, exactly as `dict.get("default")`
  conflates the two in the source.
* The templating engine (Jinja2 in the source) is modelled on the
  fragment the templates use and the spec requires (§4.2 "Templating
  semantics required"): literal text, interpolation of a plain variable
  name, free-variable discovery, no autoescaping, and preservation of
  all literal text including trailing newlines.  A name left undefined
  in the substitution context renders as the empty string, as Jinja2's
  default `Undefined` does for plain interpolation.
* File-system state is explicit: `load` takes the list of files produced
  by the directory scan, and `create_prompt` threads an explicit map
  from file name to written document.
-/

namespace PromptRegistryModel

/-! ### Association lists (the model of Python `dict`) -/

/-- First-match lookup in an association list.  On the unique-key lists
that model Python `dict`s this is exactly `d.get(k)` / `d[k]`. -/
def lookupA {κ α : Type} [DecidableEq κ] (l : List (κ × α)) (k : κ) : Option α :=
  (l.find? (fun p => p.1 = k)).map (fun p => p.2)

/-- Model of `d[k] = v` on a Python `dict`: replace the binding in place if the
key is present, otherwise append it (insertion order is preserved). -/
def insertA {κ α : Type} [DecidableEq κ] : List (κ × α) → κ → α → List (κ × α)
  | [], k, v => [(k, v)]
  | (k', v') :: rest, k, v =>
      if k' = k then (k, v) :: rest else (k', v') :: insertA rest k v

/-! ### The templating-engine fragment -/

/-- One parsed piece of a template body: a literal character or an
interpolation `\x7b\x7b name \x7d\x7d` of a variable name. -/
inductive Chunk where
  | lit (c : Char)
  | var (n : String)
  deriving DecidableEq, Repr

/-- A character allowed inside an interpolated variable name. -/
def isIdentChar (c : Char) : Bool := c.isAlphanum || c = '_'

/-- A character that may start an interpolated variable name. -/
def isIdentStart (c : Char) : Bool := c.isAlpha || c = '_'

/-- Recognise the contents found between `\x7b\x7b` and `\x7d\x7d`:
optional spaces, one identifier, optional spaces. -/
def parseVarName (cs : List Char) : Option String :=
  let cs := cs.dropWhile (fun c => c = ' ')
  let name := cs.takeWhile isIdentChar
  let rest := (cs.drop name.length).dropWhile (fun c => c = ' ')
  match name with
  | [] => none
  | c :: _ => if isIdentStart c ∧ rest = [] then some (String.mk name) else none

/-- Split at the first closing `\x7d\x7d`, returning the characters
before it and the characters after it; `none` if it never closes. -/
def splitAtBraces : List Char → Option (List Char × List Char)
  | [] => none
  | '\x7d' :: '\x7d' :: rest => some ([], rest)
  | c :: rest => (splitAtBraces rest).map (fun p => (c :: p.1, p.2))

/-- Fuel-driven scanner: literal characters until an opening
`\x7b\x7b`, then an interpolation, then the rest.  The fuel is only a
termination device; it starts at the length of the input and every
recursive call consumes at least one character. -/
def parseGo : Nat → List Char → Option (List Chunk)
  | _, [] => some []
  | 0, _ :: _ => none
  | fuel + 1, '\x7b' :: '\x7b' :: rest =>
      match splitAtBraces rest with
      | none => none
      | some (content, after) =>
          match parseVarName content with
          | none => none
          | some n => (parseGo fuel after).map (fun l => Chunk.var n :: l)
  | fuel + 1, c :: rest => (parseGo fuel rest).map (fun l => Chunk.lit c :: l)

/-- Parse a template body (the model of `env.parse` /
`env.from_string`): `none` is a template syntax error. -/
def parseTemplate (s : String) : Option (List Chunk) :=
  parseGo s.length s.data

/-- Names interpolated by the parsed template, in order of appearance. -/
def chunkVars (chunks : List Chunk) : List String :=
  chunks.filterMap (fun ch => match ch with | .lit _ => none | .var n => some n)

/-- Keep the first occurrence of each name (the model of iterating the
set `meta.find_undeclared_variables` returns). -/
def dedupFirst : List String → List String
  | [] => []
  | x :: xs => x :: (dedupFirst xs).filter (fun y => y ≠ x)

/-- Substitute a context into a parsed template; an unbound name
renders as the empty string (Jinja2 default `Undefined`). -/
def renderChunks (chunks : List Chunk) (ctx : List (String × String)) : String :=
  String.join (chunks.map (fun ch =>
    match ch with
    | .lit c => String.singleton c
    | .var n => (lookupA ctx n).getD ""))

/-! ### Data model (`template.py`) -/

/-- Model of `VariableSpec` (template.py): specification for a template
variable.  `default = none` models Python `None`. -/
structure VariableSpec where
  name : String
  required : Bool := true
  default : Option String := none
  description : String := ""
  deriving DecidableEq, Repr

/-- The dictionary shape of one variable spec inside a stored document:
each field is `none` when the key is absent (`default` also when it is
an explicit `null`, as `dict.get` conflates the two). -/
structure VarSpecDoc where
  required : Option Bool := none
  default : Option String := none
  description : Option String := none
  deriving DecidableEq, Repr

/-- A raw variable entry in a document: either a nested mapping or a
bare (non-`dict`) value. -/
inductive VarSpecRaw where
  | spec (d : VarSpecDoc)
  | simple
  deriving DecidableEq, Repr

/-- The dictionary shape of a stored template document (parsed YAML):
each top-level field is `none` when the key is absent. -/
structure TemplateDoc where
  name : Option String := none
  version : Option Int := none
  description : Option String := none
  -- the `variables` key of the document (`variables` is reserved in Lean)
  vars : Option (List (String × VarSpecRaw)) := none
  template : Option String := none
  deriving DecidableEq, Repr

/-- Model of `VariableSpec.from_dict` (template.py): absent fields fall back to
`required=True`, `default=None`, `description=""`. -/
def VariableSpec.from_dict (name : String) (data : VarSpecDoc) : VariableSpec :=
  { name := name
    required := data.required.getD true
    default := data.default
    description := data.description.getD "" }

/-- Model of `PromptTemplate` (template.py).  `variables` is the insertion-order
association list modelling the Python `dict`; `version` is an `Int`
(the source stores whatever the document held and `validate` flags
non-positive values later). -/
structure PromptTemplate where
  name : String
  template : String
  version : Int := 1
  description : String := ""
  -- the `variables` attribute of the source (`variables` is reserved in Lean)
  vars : List (String × VariableSpec) := []
  deriving DecidableEq, Repr

namespace PromptTemplate

/-- The `variables` loop of `PromptTemplate.from_dict`: a mapping entry
goes through `VariableSpec.from_dict`, any other value becomes a
required variable with no spec.  The document's mapping keys are
distinct, so the dict inserts of the source are order-preserving maps. -/
def buildVars (vs : List (String × VarSpecRaw)) : List (String × VariableSpec) :=
  vs.map (fun p =>
    (p.1, match p.2 with
      | .spec d => VariableSpec.from_dict p.1 d
      | .simple => { name := p.1, required := true }))

/-- Model of `PromptTemplate.from_dict` (template.py). -/
def from_dict (data : TemplateDoc) : PromptTemplate :=
  { name := data.name.getD "unnamed"
    template := data.template.getD ""
    version := data.version.getD 1
    description := data.description.getD ""
    vars := match data.vars with
      | none => []
      | some vs => buildVars vs }

/-- Model of `PromptTemplate.to_dict` (template.py): always emits `required` and
`description`; emits `default` only when the variable is optional and
its default is non-null. -/
def to_dict (t : PromptTemplate) : TemplateDoc :=
  { name := some t.name
    version := some t.version
    description := some t.description
    vars := some (t.vars.map (fun p =>
      (p.1, VarSpecRaw.spec
        { required := some p.2.required
          description := some p.2.description
          default := if p.2.required = false ∧ p.2.default.isSome then p.2.default else none })))
    template := some t.template }

/-- Model of `PromptTemplate._get_template_variables` (template.py): the set of
names the parsed template references, modelled as the
first-occurrence-deduplicated list. -/
def templateVariables (chunks : List Chunk) : List String :=
  dedupFirst (chunkVars chunks)

/-- Check 1 of `validate`: the body must parse under the templating
grammar (the engine's own error text is abstracted away). -/
def grammarErrors (t : PromptTemplate) : List String :=
  match parseTemplate t.template with
  | none => ["Template syntax error"]
  | some _ => []

/-- Check 2 of `validate`: every referenced variable must be declared.
When the body does not parse, `_get_template_variables` raises and the
`except` clause records one message instead. -/
def undefinedErrors (t : PromptTemplate) : List String :=
  match parseTemplate t.template with
  | none => ["Error parsing template variables"]
  | some chunks =>
      ((templateVariables chunks).filter (fun v => ¬ (lookupA t.vars v).isSome)).map
        (fun v => "Variable '" ++ v ++ "' used in template but not defined in variables")

/-- Check 3 of `validate`: the version must be a positive integer (the
`isinstance` half of the source's test is carried by the `Int` type of
the embedding). -/
def versionErrors (t : PromptTemplate) : List String :=
  if t.version < 1 then ["Version must be a positive integer, got: " ++ toString t.version]
  else []

/-- Model of `PromptTemplate.validate` (template.py): the three checks run in
order and their messages accumulate. -/
def validate (t : PromptTemplate) : List String :=
  grammarErrors t ++ undefinedErrors t ++ versionErrors t

/-- Model of `PromptTemplate.validate_inputs` (template.py): one message per
missing required variable, then one per unknown provided key. -/
def validate_inputs (t : PromptTemplate) (inputs : List (String × String)) : List String :=
  ((t.vars.filter (fun p => p.2.required ∧ ¬ (lookupA inputs p.1).isSome)).map
    (fun p => "Required variable '" ++ p.1 ++ "' is missing"))
  ++ ((inputs.filter (fun p => ¬ (lookupA t.vars p.1).isSome)).map
    (fun p => "Unknown variable '" ++ p.1 ++ "' provided"))

/-- The first loop of `render`: for each declared variable take the
caller's value, else an optional variable's non-null default, else
nothing.  Declared names are distinct, so the dict assignments of the
source append in declaration order. -/
def buildDeclared (vars : List (String × VariableSpec)) (kwargs : List (String × String)) :
    List (String × String) :=
  vars.foldr (fun p acc =>
    match lookupA kwargs p.1 with
    | some v => (p.1, v) :: acc
    | none =>
        match p.2.required, p.2.default with
        | false, some d => (p.1, d) :: acc
        | _, _ => acc) []

/-- The second loop of `render`: `if key not in context:
context[key] = value` over the caller's entries, appending. -/
def addExtras (ctx : List (String × String)) : List (String × String) → List (String × String)
  | [] => ctx
  | (k, v) :: rest =>
      if (lookupA ctx k).isSome then addExtras ctx rest
      else addExtras (ctx ++ [(k, v)]) rest

/-- The merged substitution context of `render`. -/
def buildContext (t : PromptTemplate) (kwargs : List (String × String)) :
    List (String × String) :=
  addExtras (buildDeclared t.vars kwargs) kwargs

/-- Model of `PromptTemplate.render` (template.py): build the context, validate
it with `validate_inputs`, raise an aggregated `ValueError` on any
message, else substitute.  A body that fails to parse surfaces as the
engine's syntax error (uncaught by `render`). -/
def render (t : PromptTemplate) (kwargs : List (String × String)) : Except String String :=
  let context := buildContext t kwargs
  let errs := validate_inputs t context
  if errs = [] then
    match parseTemplate t.template with
    | none => Except.error "Template syntax error"
    | some chunks => Except.ok (renderChunks chunks context)
  else
    Except.error ("Input validation failed: " ++ String.intercalate "; " errs)

end PromptTemplate

/-! ### Registry model (`registry.py`) -/

/-- One name's versions: version number → template, insertion order. -/
abbrev VersionMap := List (Int × PromptTemplate)

/-- Model of `self._templates`: name → version → template. -/
abbrev Index := List (String × VersionMap)

/-- Model of `max(versions.keys())`. -/
def maxKey : List Int → Option Int
  | [] => none
  | v :: rest =>
      some (match maxKey rest with
        | none => v
        | some m => max v m)

/-- Model of `sorted(...)` on version lists (ascending insertion sort). -/
def insertSorted (v : Int) : List Int → List Int
  | [] => [v]
  | x :: xs => if v ≤ x then v :: x :: xs else x :: insertSorted v xs

/-- Model of `sorted(versions.keys())`. -/
def sortInts (l : List Int) : List Int := l.foldr insertSorted []

/-- What the registry sees of one file found by the directory scan:
its path, its base name without extension (`filepath.stem`), and its
parsed content — a YAML error, an empty document (`safe_load` returns
`None`), or a parsed mapping. -/
inductive FileContent where
  | malformed
  | empty
  | doc (d : TemplateDoc)
  deriving DecidableEq, Repr

structure StoredFile where
  path : String
  stem : String
  content : FileContent
  deriving DecidableEq, Repr

namespace PromptRegistry

/-- The dict-of-dicts insert of `_load_file`:
`self._templates[name][version] = template` (creating the inner dict
when the name is new). -/
def indexInsert (idx : Index) (name : String) (version : Int) (t : PromptTemplate) : Index :=
  match lookupA idx name with
  | none => insertA idx name [(version, t)]
  | some vm => insertA idx name (insertA vm version t)

/-- Model of `PromptRegistry._load_file` (registry.py): parse the document,
substitute the file's stem for the sentinel name `"unnamed"`, insert
under `[name][version]`.  A YAML error raises a `ValueError` naming
the file; an empty document is skipped. -/
def loadFile (idx : Index) (f : StoredFile) : Except String Index :=
  match f.content with
  | .malformed => Except.error ("Error parsing YAML in " ++ f.path)
  | .empty => Except.ok idx
  | .doc d =>
      let t0 := PromptTemplate.from_dict d
      let t := if t0.name = "unnamed" then { t0 with name := f.stem } else t0
      Except.ok (indexInsert idx t.name t.version t)

/-- The file loop of `load`: the index is mutated file by file and the
first failure propagates, leaving the partially-built index behind. -/
def loadAux : Index → List StoredFile → Index × Option String
  | idx, [] => (idx, none)
  | idx, f :: fs =>
      match loadFile idx f with
      | .error e => (idx, some e)
      | .ok idx' => loadAux idx' fs

/-- Model of `PromptRegistry.load` (registry.py): `self._templates = {}` first,
then every scanned file in turn.  The previous index is the first
argument and is discarded unconditionally; on failure the visible
index is whatever the loop had built so far. -/
def load (_previous : Index) (files : List StoredFile) : Index × Option String :=
  loadAux [] files

/-- Model of `PromptRegistry.get` (registry.py): `None` for an unknown name;
an explicit version is looked up exactly; otherwise the entry at the
numeric maximum version. -/
def get (idx : Index) (name : String) (version : Option Int) : Option PromptTemplate :=
  match lookupA idx name with
  | none => none
  | some versions =>
      match version with
      | some v => lookupA versions v
      | none =>
          match maxKey (versions.map Prod.fst) with
          | none => none
          | some m => lookupA versions m

/-- Model of `PromptRegistry.list_versions` (registry.py). -/
def list_versions (idx : Index) (name : String) : List Int :=
  match lookupA idx name with
  | none => []
  | some vm => sortInts (vm.map Prod.fst)

/-- Model of `name in registry` (`__contains__`, registry.py). -/
def containsName (idx : Index) (name : String) : Bool :=
  (lookupA idx name).isSome

/-- Model of `PromptRegistry.render` (registry.py): raises a `ValueError`
naming the template when `get` finds nothing, else delegates to the
template's own `render`. -/
def render (idx : Index) (name : String) (version : Option Int)
    (kwargs : List (String × String)) : Except String String :=
  match get idx name version with
  | none => Except.error ("Template '" ++ name ++ "' not found")
  | some t => t.render kwargs

/-! #### `create_prompt` and its explicit file system -/

/-- The prompts directory as a map from file name to the parsed form
of the document the file holds. -/
abbrev FileSystem := List (String × TemplateDoc)

/-- The scan `load` performs over the directory: every stored document
as a `StoredFile` (all files here are well-formed YAML written by
`yaml.dump`). -/
def fsToFiles (fs : FileSystem) : List StoredFile :=
  fs.map (fun p =>
    { path := p.1
      stem := if p.1.endsWith ".yaml" then p.1.dropRight 5
              else if p.1.endsWith ".yml" then p.1.dropRight 4
              else p.1
      content := .doc p.2 })

/-- The result of `create_prompt`: the directory afterwards, the
reloaded index, and the returned path. -/
structure CreateResult where
  fs : FileSystem
  index : Index
  path : String
  deriving Repr

/-- The file name `create_prompt` chooses: the bare name at version 1,
a `_v<N>` suffix otherwise. -/
def createFilename (name : String) (version : Int) : String :=
  if version = 1 then name ++ ".yaml" else name ++ "_v" ++ toString version ++ ".yaml"

/-- Model of `PromptRegistry.create_prompt` (registry.py): build the document,
open the target path for writing (overwriting whatever is there — the
source performs no existence check), then reload. -/
def create_prompt (fs : FileSystem) (name template description : String)
    (variableSpecs : List (String × VarSpecDoc)) (version : Int) : CreateResult :=
  let data : TemplateDoc :=
    { name := some name
      version := some version
      description := some description
      vars := some (variableSpecs.map (fun p => (p.1, VarSpecRaw.spec p.2)))
      template := some template }
  let filename := createFilename name version
  let fs' := insertA fs filename data
  let (idx, _) := load [] (fsToFiles fs')
  { fs := fs', index := idx, path := filename }

/-- The index consistency invariant of the claim set: every indexed
entry's template carries exactly the name and version it is indexed
under, and every indexed name has at least one version. -/
def IndexWF (idx : Index) : Prop :=
  ∀ p ∈ idx, p.2 ≠ [] ∧ ∀ q ∈ p.2, q.2.name = p.1 ∧ q.2.version = q.1

end PromptRegistry

/-! ### Helper lemmas -/

@[simp] theorem lookupA_nil {κ α : Type} [DecidableEq κ] (k : κ) :
    lookupA ([] : List (κ × α)) k = none := rfl

theorem lookupA_cons {κ α : Type} [DecidableEq κ] (p : κ × α) (rest : List (κ × α)) (k : κ) :
    lookupA (p :: rest) k = if p.1 = k then some p.2 else lookupA rest k := by
  by_cases h : p.1 = k <;> simp [lookupA, List.find?, h]

theorem lookupA_insertA_self {κ α : Type} [DecidableEq κ] (l : List (κ × α)) (k : κ) (v : α) :
    lookupA (insertA l k v) k = some v := by
  induction l with
  | nil => simp [insertA, lookupA_cons]
  | cons p rest ih =>
      obtain ⟨a, b⟩ := p
      by_cases h : a = k
      · simp [insertA, h, lookupA_cons]
      · simp [insertA, h, lookupA_cons, ih]

theorem lookupA_insertA_ne {κ α : Type} [DecidableEq κ] (l : List (κ × α)) (k k' : κ) (v : α)
    (hne : k ≠ k') : lookupA (insertA l k v) k' = lookupA l k' := by
  induction l with
  | nil => simp [insertA, lookupA_cons, hne]
  | cons p rest ih =>
      obtain ⟨a, b⟩ := p
      by_cases h : a = k
      · subst h
        simp [insertA, lookupA_cons, hne, Ne.symm hne]
      · simp [insertA, h, lookupA_cons, ih]

theorem lookupA_append {κ α : Type} [DecidableEq κ] (a b : List (κ × α)) (k : κ) :
    lookupA (a ++ b) k = ((lookupA a k).orElse (fun _ => lookupA b k)) := by
  induction a with
  | nil => simp [lookupA]
  | cons p rest ih =>
      by_cases h : p.1 = k <;> simp [lookupA_cons, h, ih]

theorem lookupA_mem {κ α : Type} [DecidableEq κ] (l : List (κ × α)) (k : κ) (v : α)
    (h : lookupA l k = some v) : (k, v) ∈ l := by
  induction l with
  | nil => simp [lookupA] at h
  | cons p rest ih =>
      obtain ⟨a, b⟩ := p
      rw [lookupA_cons] at h
      by_cases hk : a = k
      · simp [hk] at h
        subst hk
        subst h
        exact List.mem_cons_self _ _
      · simp [hk] at h
        exact List.mem_cons_of_mem _ (ih h)

theorem lookupA_isSome_of_mem_keys {κ α : Type} [DecidableEq κ] (l : List (κ × α)) (k : κ)
    (h : k ∈ l.map Prod.fst) : (lookupA l k).isSome := by
  induction l with
  | nil => simp at h
  | cons p rest ih =>
      obtain ⟨a, b⟩ := p
      rw [lookupA_cons]
      by_cases hk : a = k
      · simp [hk]
      · simp only [List.map_cons, List.mem_cons] at h
        rcases h with h | h
        · exact absurd h.symm hk
        · simp only [hk, if_false]
          exact ih h

theorem lookupA_eq_none_of_not_mem_keys {κ α : Type} [DecidableEq κ] (l : List (κ × α)) (k : κ)
    (h : k ∉ l.map Prod.fst) : lookupA l k = none := by
  cases hl : lookupA l k with
  | none => rfl
  | some v => exact absurd (List.mem_map_of_mem Prod.fst (lookupA_mem l k v hl)) h

theorem lookupA_eq_some_of_mem {κ α : Type} [DecidableEq κ] (l : List (κ × α)) (k : κ) (v : α)
    (hnd : (l.map Prod.fst).Nodup) (h : (k, v) ∈ l) : lookupA l k = some v := by
  induction l with
  | nil => simp at h
  | cons p rest ih =>
      simp only [List.map_cons, List.nodup_cons] at hnd
      rw [lookupA_cons]
      rcases List.mem_cons.mp h with h | h
      · simp [← h]
      · have hk : p.1 ≠ k := by
          intro hkk
          exact hnd.1 (hkk ▸ List.mem_map_of_mem Prod.fst h)
        simp [hk]
        exact ih hnd.2 h

theorem mem_insertA {κ α : Type} [DecidableEq κ] (l : List (κ × α)) (k : κ) (v : α)
    (p : κ × α) (h : p ∈ insertA l k v) : p = (k, v) ∨ p ∈ l := by
  induction l with
  | nil => simp [insertA] at h; simp [h]
  | cons q rest ih =>
      obtain ⟨a, b⟩ := q
      by_cases hk : a = k
      · simp [insertA, hk] at h
        rcases h with h | h
        · left; simp [h]
        · right; exact List.mem_cons_of_mem _ h
      · simp [insertA, hk] at h
        rcases h with h | h
        · right; simp [h]
        · rcases ih h with h | h
          · left; exact h
          · right; exact List.mem_cons_of_mem _ h

theorem insertA_ne_nil {κ α : Type} [DecidableEq κ] (l : List (κ × α)) (k : κ) (v : α) :
    insertA l k v ≠ [] := by
  cases l with
  | nil => simp [insertA]
  | cons q rest =>
      obtain ⟨a, b⟩ := q
      by_cases hk : a = k <;> simp [insertA, hk]

theorem insertA_insertA_same {κ α : Type} [DecidableEq κ] (l : List (κ × α)) (k : κ) (v : α) :
    insertA (insertA l k v) k v = insertA l k v := by
  induction l with
  | nil => simp [insertA]
  | cons q rest ih =>
      obtain ⟨a, b⟩ := q
      by_cases hk : a = k
      · simp [insertA, hk]
      · simp [insertA, hk, ih]

theorem maxKey_mem : ∀ (l : List Int) (m : Int), maxKey l = some m → m ∈ l := by
  intro l
  induction l with
  | nil => intro m h; simp [maxKey] at h
  | cons a rest ih =>
      intro m h
      simp only [maxKey] at h
      cases hr : maxKey rest with
      | none =>
          rw [hr] at h
          simp at h
          simp [← h]
      | some m0 =>
          rw [hr] at h
          simp at h
          rcases max_cases a m0 with ⟨he, _⟩ | ⟨he, _⟩
          · rw [he] at h
            simp [← h]
          · rw [he] at h
            exact List.mem_cons_of_mem _ (h ▸ ih m0 hr)

theorem maxKey_le : ∀ (l : List Int) (x : Int), x ∈ l → ∀ m, maxKey l = some m → x ≤ m := by
  intro l
  induction l with
  | nil => intro x hx; simp at hx
  | cons a rest ih =>
      intro x hx m h
      simp only [maxKey] at h
      rcases List.mem_cons.mp hx with hx | hx
      · subst hx
        cases hr : maxKey rest with
        | none => rw [hr] at h; simp at h; omega
        | some m0 =>
            rw [hr] at h
            simp at h
            subst h
            exact le_max_left _ _
      · cases hr : maxKey rest with
        | none =>
            exfalso
            cases rest with
            | nil => simp at hx
            | cons b r => simp [maxKey] at hr
        | some m0 =>
            rw [hr] at h
            simp at h
            subst h
            exact le_trans (ih x hx m0 hr) (le_max_right _ _)

theorem maxKey_eq (l : List Int) (v : Int) (hv : v ∈ l) (hub : ∀ x ∈ l, x ≤ v) :
    maxKey l = some v := by
  cases hm : maxKey l with
  | none =>
      cases l with
      | nil => simp at hv
      | cons a r => simp [maxKey] at hm
  | some m =>
      have h1 : m ≤ v := hub m (maxKey_mem l m hm)
      have h2 : v ≤ m := maxKey_le l v hv m hm
      rw [le_antisymm h1 h2]

theorem maxKey_isSome (l : List Int) (h : l ≠ []) : (maxKey l).isSome := by
  cases l with
  | nil => exact absurd rfl h
  | cons a r => simp [maxKey]

/-! ### Claim theorems -/

theorem buildVars_roundtrip (l : List (String × VariableSpec)) :
    (PromptTemplate.buildVars (l.map (fun p =>
      (p.1, VarSpecRaw.spec
        { required := some p.2.required
          description := some p.2.description
          default := if p.2.required = false ∧ p.2.default.isSome then p.2.default else none })))).map
      (fun p => (p.1, p.2.required, p.2.description))
    = l.map (fun p => (p.1, p.2.required, p.2.description)) := by
  induction l with
  | nil => rfl
  | cons p rest ih =>
      simp [PromptTemplate.buildVars, VariableSpec.from_dict, ih]

/-- C4: parsing a document, serializing, and parsing again preserves
the template's name, version, description, body, and every variable's
requiredness and description; and `to_dict` emits a `default` key only
for an optional variable with a non-null default (never for a required
variable). -/
theorem claim_C4 :
    (∀ D : TemplateDoc,
      (PromptTemplate.from_dict (PromptTemplate.to_dict (PromptTemplate.from_dict D))).name
          = (PromptTemplate.from_dict D).name
      ∧ (PromptTemplate.from_dict (PromptTemplate.to_dict (PromptTemplate.from_dict D))).version
          = (PromptTemplate.from_dict D).version
      ∧ (PromptTemplate.from_dict (PromptTemplate.to_dict (PromptTemplate.from_dict D))).description
          = (PromptTemplate.from_dict D).description
      ∧ (PromptTemplate.from_dict (PromptTemplate.to_dict (PromptTemplate.from_dict D))).template
          = (PromptTemplate.from_dict D).template
      ∧ (PromptTemplate.from_dict (PromptTemplate.to_dict (PromptTemplate.from_dict D))).vars.map
            (fun p => (p.1, p.2.required, p.2.description))
          = (PromptTemplate.from_dict D).vars.map
            (fun p => (p.1, p.2.required, p.2.description))) ∧
    (∀ (t : PromptTemplate) (n : String) (d : VarSpecDoc),
      (n, VarSpecRaw.spec d) ∈ ((PromptTemplate.to_dict t).vars.getD []) →
      ∃ s, (n, s) ∈ t.vars ∧
        d.default = (if s.required = false ∧ s.default.isSome then s.default else none)) := by
  constructor
  · intro D
    refine ⟨rfl, rfl, rfl, rfl, ?_⟩
    exact buildVars_roundtrip (PromptTemplate.from_dict D).vars
  · intro t n d h
    simp only [PromptTemplate.to_dict, Option.getD_some] at h
    obtain ⟨p, hp, hfp⟩ := List.mem_map.mp h
    have h1 : p.1 = n := congrArg Prod.fst hfp
    have h2 : VarSpecRaw.spec
        { required := some p.2.required
          description := some p.2.description
          default := if p.2.required = false ∧ p.2.default.isSome then p.2.default else none }
        = VarSpecRaw.spec d := congrArg Prod.snd hfp
    have h3 := (VarSpecRaw.spec.injEq _ _).mp h2
    refine ⟨p.2, ?_, ?_⟩
    · rw [← h1]
      simpa using hp
    · rw [← h3]

/-- Witness for C4 at a concrete template: the serialized optional
variable carries its non-null default. -/
theorem claim_C4_witness :
    ∃ s, ("audience", s) ∈
        ([("audience", ⟨"audience", false, some "general audience", "aud"⟩)] :
          List (String × VariableSpec)) ∧
      (some "general audience" : Option String)
        = (if s.required = false ∧ s.default.isSome then s.default else none) :=
  claim_C4.2
    ⟨"example", "body", 1, "",
      [("audience", ⟨"audience", false, some "general audience", "aud"⟩)]⟩
    "audience"
    { required := some false, default := some "general audience", description := some "aud" }
    (by decide)

/-- C5: `get` with no version returns the entry at the numeric maximum
version for the name and `none` (an absent value, never an error) for
an absent name; `get` with an explicit version returns exactly that
version's entry or `none`, never falling back to another version. -/
theorem claim_C5 (idx : Index) (name : String) :
    (lookupA idx name = none → ∀ ov, PromptRegistry.get idx name ov = none) ∧
    (∀ vm : VersionMap, lookupA idx name = some vm → (vm.map Prod.fst).Nodup →
      (∀ v t, (v, t) ∈ vm → PromptRegistry.get idx name (some v) = some t) ∧
      (∀ v, v ∉ vm.map Prod.fst → PromptRegistry.get idx name (some v) = none)) ∧
    (∀ vm : VersionMap, lookupA idx name = some vm → (vm.map Prod.fst).Nodup →
      ∀ v t, (v, t) ∈ vm → (∀ p ∈ vm, p.1 ≤ v) →
        PromptRegistry.get idx name none = some t) := by
  refine ⟨?_, ?_, ?_⟩
  · intro h ov
    simp [PromptRegistry.get, h]
  · intro vm hvm hnd
    constructor
    · intro v t hmem
      simp only [PromptRegistry.get, hvm]
      exact lookupA_eq_some_of_mem vm v t hnd hmem
    · intro v hv
      simp only [PromptRegistry.get, hvm]
      exact lookupA_eq_none_of_not_mem_keys vm v hv
  · intro vm hvm hnd v t hmem hub
    have hmax : maxKey (vm.map Prod.fst) = some v := by
      apply maxKey_eq
      · exact List.mem_map_of_mem Prod.fst hmem
      · intro x hx
        obtain ⟨p, hp, hpx⟩ := List.mem_map.mp hx
        exact hpx ▸ hub p hp
    simp only [PromptRegistry.get, hvm, hmax]
    exact lookupA_eq_some_of_mem vm v t hnd hmem

/-- Witness for C5 at a registry holding versions 1, 5 and 2 of "x":
`get` with no version returns the version-5 entry. -/
theorem claim_C5_witness :
    PromptRegistry.get
        [("x", [(1, ⟨"x", "one", 1, "", []⟩), (5, ⟨"x", "five", 5, "", []⟩),
                (2, ⟨"x", "two", 2, "", []⟩)])] "x" none
      = some ⟨"x", "five", 5, "", []⟩ :=
  (claim_C5
      [("x", [(1, ⟨"x", "one", 1, "", []⟩), (5, ⟨"x", "five", 5, "", []⟩),
              (2, ⟨"x", "two", 2, "", []⟩)])] "x").2.2
    [(1, ⟨"x", "one", 1, "", []⟩), (5, ⟨"x", "five", 5, "", []⟩), (2, ⟨"x", "two", 2, "", []⟩)]
    rfl (by decide) 5 ⟨"x", "five", 5, "", []⟩ (by decide) (by decide)

/-- C6: `validate` accumulates the messages of its three independent
checks without short-circuiting; on a template whose body is exactly
one interpolation of `missing_var`, with no declared variables and a
valid version, it returns exactly the one used-but-not-defined
message naming `missing_var`. -/
theorem claim_C6 :
    (∀ t : PromptTemplate,
      t.validate = PromptTemplate.grammarErrors t ++ PromptTemplate.undefinedErrors t
        ++ PromptTemplate.versionErrors t) ∧
    (∀ (name description : String) (version : Int), 1 ≤ version →
      PromptTemplate.validate
          { name := name, template := "{{ missing_var }}", version := version,
            description := description, vars := [] }
        = ["Variable 'missing_var' used in template but not defined in variables"]) := by
  constructor
  · intro t
    rfl
  · intro name description version hv
    have hparse : parseTemplate "{{ missing_var }}" = some [Chunk.var "missing_var"] := by
      decide
    have hver : ¬ (version < 1) := by omega
    simp [PromptTemplate.validate, PromptTemplate.grammarErrors, PromptTemplate.undefinedErrors,
      PromptTemplate.versionErrors, hparse, hver, PromptTemplate.templateVariables, chunkVars,
      dedupFirst, lookupA]

/-- Witness for C6 at version 1. -/
theorem claim_C6_witness :
    PromptTemplate.validate
        { name := "t", template := "{{ missing_var }}", version := 1,
          description := "", vars := [] }
      = ["Variable 'missing_var' used in template but not defined in variables"] :=
  claim_C6.2 "t" "" 1 (by decide)

/-- C10: registry-level `render` raises an error naming the template
when `get` finds nothing (rather than returning an absent value), and
otherwise returns exactly `PromptTemplate.render` of the found
template on the same inputs. -/
theorem claim_C10 (idx : Index) (name : String) (version : Option Int)
    (kwargs : List (String × String)) :
    (PromptRegistry.get idx name version = none →
      PromptRegistry.render idx name version kwargs
        = Except.error ("Template '" ++ name ++ "' not found")) ∧
    (∀ t, PromptRegistry.get idx name version = some t →
      PromptRegistry.render idx name version kwargs = t.render kwargs) := by
  constructor
  · intro h
    simp [PromptRegistry.render, h]
  · intro t h
    simp [PromptRegistry.render, h]

/-- Witness for C10 on the empty registry. -/
theorem claim_C10_witness :
    PromptRegistry.render [] "greet" none []
      = Except.error ("Template '" ++ "greet" ++ "' not found") :=
  (claim_C10 [] "greet" none []).1 rfl

theorem indexInsert_wf (idx : Index) (n : String) (v : Int) (t : PromptTemplate)
    (hwf : PromptRegistry.IndexWF idx) (hn : t.name = n) (hv : t.version = v) :
    PromptRegistry.IndexWF (PromptRegistry.indexInsert idx n v t) := by
  intro p hp
  unfold PromptRegistry.indexInsert at hp
  cases hl : lookupA idx n with
  | none =>
      rw [hl] at hp
      rcases mem_insertA idx n [(v, t)] p hp with h | h
      · subst h
        refine ⟨by simp, ?_⟩
        intro q hq
        simp at hq
        subst hq
        exact ⟨hn, hv⟩
      · exact hwf p h
  | some vm =>
      rw [hl] at hp
      rcases mem_insertA idx n (insertA vm v t) p hp with h | h
      · subst h
        refine ⟨insertA_ne_nil vm v t, ?_⟩
        intro q hq
        rcases mem_insertA vm v t q hq with h2 | h2
        · subst h2
          exact ⟨hn, hv⟩
        · exact (hwf (n, vm) (lookupA_mem idx n vm hl)).2 q h2
      · exact hwf p h

theorem loadFile_wf (idx : Index) (f : StoredFile) (idx' : Index)
    (h : PromptRegistry.loadFile idx f = Except.ok idx')
    (hwf : PromptRegistry.IndexWF idx) : PromptRegistry.IndexWF idx' := by
  unfold PromptRegistry.loadFile at h
  cases hc : f.content with
  | malformed => rw [hc] at h; simp at h
  | empty =>
      rw [hc] at h
      simp at h
      subst h
      exact hwf
  | doc d =>
      rw [hc] at h
      simp at h
      subst h
      exact indexInsert_wf idx _ _ _ hwf rfl rfl

theorem loadAux_wf (files : List StoredFile) :
    ∀ idx, PromptRegistry.IndexWF idx →
      PromptRegistry.IndexWF (PromptRegistry.loadAux idx files).1 := by
  induction files with
  | nil => intro idx h; exact h
  | cons f fs ih =>
      intro idx h
      unfold PromptRegistry.loadAux
      cases hf : PromptRegistry.loadFile idx f with
      | error e => exact h
      | ok idx' => exact ih idx' (loadFile_wf idx f idx' hf h)

/-- C9: after a successful `load` (and `reload` is `load`) or a
`create_prompt` the index invariant holds — every entry's template
carries the indexed name and version and every indexed name has a
version — and under the invariant `get` with no version succeeds
exactly when the name is a member of the registry. -/
theorem claim_C9 :
    (∀ (prev : Index) (files : List StoredFile),
      (PromptRegistry.load prev files).2 = none →
      PromptRegistry.IndexWF (PromptRegistry.load prev files).1) ∧
    (∀ (fs : PromptRegistry.FileSystem) (name template description : String)
        (variableSpecs : List (String × VarSpecDoc)) (version : Int),
      PromptRegistry.IndexWF
        (PromptRegistry.create_prompt fs name template description variableSpecs version).index) ∧
    (∀ (idx : Index) (n : String), PromptRegistry.IndexWF idx →
      ((PromptRegistry.get idx n none).isSome ↔ PromptRegistry.containsName idx n = true)) := by
  have hwfnil : PromptRegistry.IndexWF [] := by intro p hp; simp at hp
  refine ⟨?_, ?_, ?_⟩
  · intro prev files _
    exact loadAux_wf files [] hwfnil
  · intro fs name template description variableSpecs version
    unfold PromptRegistry.create_prompt
    exact loadAux_wf _ [] hwfnil
  · intro idx n hwf
    constructor
    · intro h
      cases hl : lookupA idx n with
      | none => simp [PromptRegistry.get, hl] at h
      | some vm => simp [PromptRegistry.containsName, hl]
    · intro h
      simp only [PromptRegistry.containsName] at h
      obtain ⟨vm, hvm⟩ := Option.isSome_iff_exists.mp h
      have hval := hwf (n, vm) (lookupA_mem idx n vm hvm)
      have hne : vm ≠ [] := hval.1
      have hkeys : vm.map Prod.fst ≠ [] := by
        intro hk
        exact hne (List.map_eq_nil_iff.mp hk)
      obtain ⟨m, hm⟩ := Option.isSome_iff_exists.mp (maxKey_isSome (vm.map Prod.fst) hkeys)
      have hsome := lookupA_isSome_of_mem_keys vm m (maxKey_mem _ m hm)
      simp [PromptRegistry.get, hvm, hm, hsome]

/-- Witness for C9: on a concrete well-formed index, versionless `get`
succeeds exactly for names the registry contains. -/
theorem claim_C9_witness :
    (PromptRegistry.get [("a", [(1, ⟨"a", "b", 1, "", []⟩)])] "a" none).isSome
      ↔ PromptRegistry.containsName [("a", [(1, ⟨"a", "b", 1, "", []⟩)])] "a" = true :=
  claim_C9.2.2 [("a", [(1, ⟨"a", "b", 1, "", []⟩)])] "a" (by
    intro p hp
    simp only [List.mem_singleton] at hp
    subst hp
    refine ⟨by simp, ?_⟩
    intro q hq
    simp only [List.mem_singleton] at hq
    subst hq
    exact ⟨rfl, rfl⟩)

theorem buildDeclared_cons (m : String) (sm : VariableSpec)
    (rest : List (String × VariableSpec)) (kwargs : List (String × String)) :
    PromptTemplate.buildDeclared ((m, sm) :: rest) kwargs =
      (match lookupA kwargs m with
       | some v => (m, v) :: PromptTemplate.buildDeclared rest kwargs
       | none =>
           match sm.required, sm.default with
           | false, some d => (m, d) :: PromptTemplate.buildDeclared rest kwargs
           | _, _ => PromptTemplate.buildDeclared rest kwargs) := rfl

theorem mem_buildDeclared (vars : List (String × VariableSpec))
    (kwargs : List (String × String)) :
    ∀ p ∈ PromptTemplate.buildDeclared vars kwargs, p.1 ∈ vars.map Prod.fst := by
  induction vars with
  | nil => intro p hp; simp [PromptTemplate.buildDeclared] at hp
  | cons q rest ih =>
      obtain ⟨m, sm⟩ := q
      intro p hp
      rw [buildDeclared_cons] at hp
      simp only [List.map_cons]
      cases hkw : lookupA kwargs m with
      | some v =>
          rw [hkw] at hp
          rcases List.mem_cons.mp hp with h | h
          · subst h; exact List.mem_cons_self _ _
          · exact List.mem_cons_of_mem _ (ih p h)
      | none =>
          rw [hkw] at hp
          cases hr : sm.required with
          | false =>
              cases hd : sm.default with
              | some d =>
                  rw [hr, hd] at hp
                  rcases List.mem_cons.mp hp with h | h
                  · subst h; exact List.mem_cons_self _ _
                  · exact List.mem_cons_of_mem _ (ih p h)
              | none =>
                  rw [hr, hd] at hp
                  exact List.mem_cons_of_mem _ (ih p hp)
          | true =>
              rw [hr] at hp
              exact List.mem_cons_of_mem _ (ih p hp)

theorem lookupA_buildDeclared_none (vars : List (String × VariableSpec))
    (kwargs : List (String × String)) (n : String) (h : n ∉ vars.map Prod.fst) :
    lookupA (PromptTemplate.buildDeclared vars kwargs) n = none := by
  cases hl : lookupA (PromptTemplate.buildDeclared vars kwargs) n with
  | none => rfl
  | some v =>
      exact absurd (mem_buildDeclared vars kwargs (n, v)
        (lookupA_mem _ n v hl)) h

theorem lookupA_buildDeclared_of_mem (vars : List (String × VariableSpec))
    (kwargs : List (String × String)) (n : String) (s : VariableSpec)
    (hnd : (vars.map Prod.fst).Nodup) (hmem : (n, s) ∈ vars) :
    lookupA (PromptTemplate.buildDeclared vars kwargs) n =
      (match lookupA kwargs n with
       | some v => some v
       | none =>
           match s.required, s.default with
           | false, some d => some d
           | _, _ => none) := by
  induction vars with
  | nil => simp at hmem
  | cons q rest ih =>
      obtain ⟨m, sm⟩ := q
      simp only [List.map_cons, List.nodup_cons] at hnd
      rw [buildDeclared_cons]
      rcases List.mem_cons.mp hmem with h | h
      · have h1 : m = n := (congrArg Prod.fst h.symm : m = n)
        have h2 : sm = s := (congrArg Prod.snd h.symm : sm = s)
        subst h1
        subst h2
        cases hkw : lookupA kwargs m with
        | some v => rw [lookupA_cons]; simp
        | none =>
            cases hr : sm.required with
            | false =>
                cases hd : sm.default with
                | some d => rw [lookupA_cons]; simp
                | none =>
                    simp only
                    rw [lookupA_buildDeclared_none rest kwargs m hnd.1]
            | true =>
                simp only
                rw [lookupA_buildDeclared_none rest kwargs m hnd.1]
      · have hne : m ≠ n := by
          intro hmn
          subst hmn
          exact hnd.1 (List.mem_map_of_mem Prod.fst h)
        cases hkw : lookupA kwargs m with
        | some v =>
            rw [lookupA_cons]
            simp only [hne, if_false]
            exact ih hnd.2 h
        | none =>
            cases hr : sm.required with
            | false =>
                cases hd : sm.default with
                | some d =>
                    rw [lookupA_cons]
                    simp only [hne, if_false]
                    exact ih hnd.2 h
                | none => exact ih hnd.2 h
            | true => exact ih hnd.2 h

theorem mem_addExtras (kw : List (String × String)) :
    ∀ (ctx : List (String × String)) (p : String × String),
      p ∈ PromptTemplate.addExtras ctx kw → p ∈ ctx ∨ p ∈ kw := by
  induction kw with
  | nil => intro ctx p hp; exact Or.inl hp
  | cons q rest ih =>
      obtain ⟨k0, v0⟩ := q
      intro ctx p hp
      simp only [PromptTemplate.addExtras] at hp
      by_cases h0 : (lookupA ctx k0).isSome
      · rw [if_pos h0] at hp
        rcases ih ctx p hp with h | h
        · exact Or.inl h
        · exact Or.inr (List.mem_cons_of_mem _ h)
      · rw [if_neg h0] at hp
        rcases ih (ctx ++ [(k0, v0)]) p hp with h | h
        · rcases List.mem_append.mp h with h | h
          · exact Or.inl h
          · simp at h
            exact Or.inr (by simp [h])
        · exact Or.inr (List.mem_cons_of_mem _ h)

theorem lookupA_addExtras (kw : List (String × String)) :
    ∀ (ctx : List (String × String)) (k : String),
      lookupA (PromptTemplate.addExtras ctx kw) k
        = (lookupA ctx k).orElse (fun _ => lookupA kw k) := by
  induction kw with
  | nil =>
      intro ctx k
      cases h : lookupA ctx k <;> simp [PromptTemplate.addExtras, h, Option.orElse]
  | cons q rest ih =>
      obtain ⟨k0, v0⟩ := q
      intro ctx k
      simp only [PromptTemplate.addExtras]
      by_cases h0 : (lookupA ctx k0).isSome
      · rw [if_pos h0, ih]
        by_cases hk : k0 = k
        · subst hk
          obtain ⟨v, hv⟩ := Option.isSome_iff_exists.mp h0
          rw [hv, lookupA_cons]
          simp
        · rw [lookupA_cons]
          simp only [hk, if_false]
      · rw [if_neg h0, ih, lookupA_append]
        have h0n : lookupA ctx k0 = none := Option.not_isSome_iff_eq_none.mp h0
        by_cases hk : k0 = k
        · subst hk
          rw [h0n, lookupA_cons, lookupA_cons]
          simp [Option.orElse]
        · rw [lookupA_cons, lookupA_cons]
          simp only [hk, if_false]
          cases h : lookupA ctx k <;> simp [h, Option.orElse]

theorem lookupA_buildContext (t : PromptTemplate) (kwargs : List (String × String))
    (k : String) :
    lookupA (t.buildContext kwargs) k
      = (lookupA (PromptTemplate.buildDeclared t.vars kwargs) k).orElse
          (fun _ => lookupA kwargs k) :=
  lookupA_addExtras kwargs _ k

theorem lookupA_buildContext_required (t : PromptTemplate) (kwargs : List (String × String))
    (n : String) (sv : VariableSpec) (hnd : (t.vars.map Prod.fst).Nodup)
    (hmem : (n, sv) ∈ t.vars) (hreq : sv.required = true) :
    lookupA (t.buildContext kwargs) n = lookupA kwargs n := by
  rw [lookupA_buildContext,
    lookupA_buildDeclared_of_mem t.vars kwargs n sv hnd hmem]
  cases hkw : lookupA kwargs n with
  | some v => simp
  | none => simp [hreq]

theorem validateInputs_buildContext (t : PromptTemplate) (kwargs : List (String × String))
    (hnd : (t.vars.map Prod.fst).Nodup)
    (hdecl : ∀ p ∈ kwargs, (lookupA t.vars p.1).isSome) :
    t.validate_inputs (t.buildContext kwargs)
      = (t.vars.filter (fun p => p.2.required ∧ ¬ (lookupA kwargs p.1).isSome)).map
          (fun p => "Required variable '" ++ p.1 ++ "' is missing") := by
  unfold PromptTemplate.validate_inputs
  have hunk : ((t.buildContext kwargs).filter
      (fun p => ¬ (lookupA t.vars p.1).isSome)) = [] := by
    rw [List.filter_eq_nil_iff]
    intro p hp
    rcases mem_addExtras kwargs _ p hp with h | h
    · have hk := mem_buildDeclared t.vars kwargs p h
      simp [lookupA_isSome_of_mem_keys t.vars p.1 hk]
    · simp [hdecl p h]
  have hreq : (t.vars.filter
        (fun p => p.2.required ∧ ¬ (lookupA (t.buildContext kwargs) p.1).isSome))
      = t.vars.filter (fun p => p.2.required ∧ ¬ (lookupA kwargs p.1).isSome) := by
    apply List.filter_congr
    intro p hp
    cases hr : p.2.required with
    | false => simp [hr]
    | true =>
        have hmem : (p.1, p.2) ∈ t.vars := by simpa using hp
        rw [lookupA_buildContext_required t kwargs p.1 p.2 hnd hmem hr]
  rw [hunk, hreq]
  simp

/-- C7: with every required variable supplied (over declared keys)
`render` succeeds and substitutes exactly the supplied values; an
omitted optional variable with a non-null default receives the default
in the substitution context; omitting any required variable makes
`render` raise one aggregated error listing every missing required
variable by name, and a required variable's own default is never
placed in the context. -/
theorem claim_C7 (t : PromptTemplate) (kwargs : List (String × String))
    (hnd : (t.vars.map Prod.fst).Nodup)
    (hkwnd : (kwargs.map Prod.fst).Nodup)
    (hdecl : ∀ p ∈ kwargs, (lookupA t.vars p.1).isSome) :
    ((∀ p ∈ t.vars, p.2.required = true → (lookupA kwargs p.1).isSome) →
      (∀ chunks, parseTemplate t.template = some chunks →
        t.render kwargs = Except.ok (renderChunks chunks (t.buildContext kwargs))) ∧
      (∀ n v, (n, v) ∈ kwargs → lookupA (t.buildContext kwargs) n = some v) ∧
      (∀ n sv d, (n, sv) ∈ t.vars → sv.required = false → sv.default = some d →
        lookupA kwargs n = none → lookupA (t.buildContext kwargs) n = some d)) ∧
    ((∃ p ∈ t.vars, p.2.required = true ∧ lookupA kwargs p.1 = none) →
      t.render kwargs = Except.error ("Input validation failed: " ++ String.intercalate "; "
        ((t.vars.filter (fun p => p.2.required ∧ ¬ (lookupA kwargs p.1).isSome)).map
          (fun p => "Required variable '" ++ p.1 ++ "' is missing"))) ∧
      (∀ n sv, (n, sv) ∈ t.vars → sv.required = true → lookupA kwargs n = none →
        lookupA (t.buildContext kwargs) n = none)) := by
  constructor
  · intro hall
    refine ⟨?_, ?_, ?_⟩
    · intro chunks hparse
      have herrs : t.validate_inputs (t.buildContext kwargs) = [] := by
        rw [validateInputs_buildContext t kwargs hnd hdecl]
        have : (t.vars.filter (fun p => p.2.required ∧ ¬ (lookupA kwargs p.1).isSome)) = [] := by
          rw [List.filter_eq_nil_iff]
          intro p hp
          by_cases hr : p.2.required = true
          · simp [hr, hall p hp hr]
          · simp [hr]
        rw [this]
        rfl
      simp only [PromptTemplate.render]
      rw [herrs]
      simp [hparse]
    · intro n v hmem
      have hkw : lookupA kwargs n = some v := lookupA_eq_some_of_mem kwargs n v hkwnd hmem
      rw [lookupA_buildContext]
      cases hs : lookupA t.vars n with
      | none =>
          rw [lookupA_buildDeclared_none t.vars kwargs n]
          · simp [hkw]
          · intro hk
            have := lookupA_isSome_of_mem_keys t.vars n hk
            simp [hs] at this
      | some sv =>
          rw [lookupA_buildDeclared_of_mem t.vars kwargs n sv hnd (lookupA_mem _ n sv hs), hkw]
          rfl
    · intro n sv d hmem hopt hdef hkw
      rw [lookupA_buildContext,
        lookupA_buildDeclared_of_mem t.vars kwargs n sv hnd hmem, hkw, hopt, hdef]
      rfl
  · intro hmissing
    have herrs : t.validate_inputs (t.buildContext kwargs)
        = (t.vars.filter (fun p => p.2.required ∧ ¬ (lookupA kwargs p.1).isSome)).map
            (fun p => "Required variable '" ++ p.1 ++ "' is missing") :=
      validateInputs_buildContext t kwargs hnd hdecl
    constructor
    · have hne : t.validate_inputs (t.buildContext kwargs) ≠ [] := by
        rw [herrs]
        obtain ⟨p, hp, hr, hkw⟩ := hmissing
        intro hnil
        have : p ∈ t.vars.filter (fun p => p.2.required ∧ ¬ (lookupA kwargs p.1).isSome) := by
          rw [List.mem_filter]
          refine ⟨hp, ?_⟩
          simp [hr, hkw]
        have hfil : (t.vars.filter
            (fun p => p.2.required ∧ ¬ (lookupA kwargs p.1).isSome)) = [] :=
          List.map_eq_nil_iff.mp hnil
        rw [hfil] at this
        simp at this
      simp only [PromptTemplate.render]
      rw [if_neg hne, herrs]
    · intro n sv hmem hr hkw
      rw [lookupA_buildContext_required t kwargs n sv hnd hmem hr, hkw]

/-- Witness for C7 on the example template: a required `topic` and an
optional `audience` defaulting to "general audience"; rendering with
only `topic` supplied succeeds and the context holds the default. -/
theorem claim_C7_witness :
    (PromptTemplate.render
        ⟨"example", "Explain {{ topic }} for {{ audience }}.",
          1, "",
          [("topic", ⟨"topic", true, none, ""⟩),
           ("audience", ⟨"audience", false, some "general audience", ""⟩)]⟩
        [("topic", "monads")]
      = Except.ok (renderChunks
          [Chunk.lit 'E', Chunk.lit 'x', Chunk.lit 'p', Chunk.lit 'l', Chunk.lit 'a',
           Chunk.lit 'i', Chunk.lit 'n', Chunk.lit ' ', Chunk.var "topic", Chunk.lit ' ',
           Chunk.lit 'f', Chunk.lit 'o', Chunk.lit 'r', Chunk.lit ' ',
           Chunk.var "audience", Chunk.lit '.']
          (PromptTemplate.buildContext
            ⟨"example", "Explain {{ topic }} for {{ audience }}.",
              1, "",
              [("topic", ⟨"topic", true, none, ""⟩),
               ("audience", ⟨"audience", false, some "general audience", ""⟩)]⟩
            [("topic", "monads")]))) ∧
    lookupA
        (PromptTemplate.buildContext
          ⟨"example", "Explain {{ topic }} for {{ audience }}.",
            1, "",
            [("topic", ⟨"topic", true, none, ""⟩),
             ("audience", ⟨"audience", false, some "general audience", ""⟩)]⟩
          [("topic", "monads")]) "audience"
      = some "general audience" := by
  refine ⟨?_, ?_⟩
  · exact ((claim_C7
      ⟨"example", "Explain {{ topic }} for {{ audience }}.",
        1, "",
        [("topic", ⟨"topic", true, none, ""⟩),
         ("audience", ⟨"audience", false, some "general audience", ""⟩)]⟩
      [("topic", "monads")] (by decide) (by decide)
      (by decide)).1
      (by decide)).1 _ (by decide)
  · exact (((claim_C7
      ⟨"example", "Explain {{ topic }} for {{ audience }}.",
        1, "",
        [("topic", ⟨"topic", true, none, ""⟩),
         ("audience", ⟨"audience", false, some "general audience", ""⟩)]⟩
      [("topic", "monads")] (by decide) (by decide)
      (by decide)).1
      (by decide)).2.2 "audience"
      ⟨"audience", false, some "general audience", ""⟩ "general audience"
      (by decide) rfl rfl (by decide))

/-- C1 counterexample: with the only declared variable `x` supplied,
one extra undeclared input `y` makes `render` raise a variable-contract
error instead of passing through. -/
theorem claim_C1_counterexample :
    PromptTemplate.render
        ⟨"greet", "Hi {{ x }}", 1, "", [("x", ⟨"x", true, none, ""⟩)]⟩
        [("x", "a"), ("y", "b")]
      = Except.error "Input validation failed: Unknown variable 'y' provided" := by
  rfl

/-- C1 (amended): `render` validates the merged context — in which
every caller-supplied key appears — so supplying any input key not
declared among the template's variables makes `render` raise an
input-validation error; undeclared inputs never pass through without
failing. -/
theorem claim_C1 (t : PromptTemplate) (kwargs : List (String × String)) (k v : String)
    (hk : (k, v) ∈ kwargs) (hundecl : lookupA t.vars k = none) :
    t.validate_inputs (t.buildContext kwargs) ≠ [] ∧
    t.render kwargs = Except.error ("Input validation failed: "
      ++ String.intercalate "; " (t.validate_inputs (t.buildContext kwargs))) := by
  have hknotdecl : k ∉ t.vars.map Prod.fst := by
    intro hmem
    have := lookupA_isSome_of_mem_keys t.vars k hmem
    simp [hundecl] at this
  have hctx : (lookupA (t.buildContext kwargs) k).isSome := by
    rw [lookupA_buildContext, lookupA_buildDeclared_none t.vars kwargs k hknotdecl]
    have hkw : (lookupA kwargs k).isSome :=
      lookupA_isSome_of_mem_keys kwargs k (List.mem_map_of_mem Prod.fst hk)
    obtain ⟨w, hw⟩ := Option.isSome_iff_exists.mp hkw
    rw [hw]
    rfl
  obtain ⟨w, hw⟩ := Option.isSome_iff_exists.mp hctx
  have hmemctx : (k, w) ∈ t.buildContext kwargs := lookupA_mem _ k w hw
  have hunk : ((t.buildContext kwargs).filter
      (fun p => ¬ (lookupA t.vars p.1).isSome)) ≠ [] := by
    intro hnil
    have hin : (k, w) ∈ (t.buildContext kwargs).filter
        (fun p => ¬ (lookupA t.vars p.1).isSome) := by
      rw [List.mem_filter]
      exact ⟨hmemctx, by simp [hundecl]⟩
    rw [hnil] at hin
    simp at hin
  have hne : t.validate_inputs (t.buildContext kwargs) ≠ [] := by
    unfold PromptTemplate.validate_inputs
    intro hnil
    rcases List.append_eq_nil.mp hnil with ⟨_, h2⟩
    exact hunk (List.map_eq_nil_iff.mp h2)
  refine ⟨hne, ?_⟩
  simp only [PromptTemplate.render]
  rw [if_neg hne]

/-- Witness for C1 at the counterexample's template and inputs. -/
theorem claim_C1_witness :
    PromptTemplate.validate_inputs
        ⟨"greet", "Hi {{ x }}", 1, "", [("x", ⟨"x", true, none, ""⟩)]⟩
        (PromptTemplate.buildContext
          ⟨"greet", "Hi {{ x }}", 1, "", [("x", ⟨"x", true, none, ""⟩)]⟩
          [("x", "a"), ("y", "b")]) ≠ [] ∧
    PromptTemplate.render
        ⟨"greet", "Hi {{ x }}", 1, "", [("x", ⟨"x", true, none, ""⟩)]⟩
        [("x", "a"), ("y", "b")]
      = Except.error ("Input validation failed: " ++ String.intercalate "; "
          (PromptTemplate.validate_inputs
            ⟨"greet", "Hi {{ x }}", 1, "", [("x", ⟨"x", true, none, ""⟩)]⟩
            (PromptTemplate.buildContext
              ⟨"greet", "Hi {{ x }}", 1, "", [("x", ⟨"x", true, none, ""⟩)]⟩
              [("x", "a"), ("y", "b")]))) :=
  claim_C1
    ⟨"greet", "Hi {{ x }}", 1, "", [("x", ⟨"x", true, none, ""⟩)]⟩
    [("x", "a"), ("y", "b")] "y" "b" (by decide) rfl

theorem loadAux_error_decomp :
    ∀ (files : List StoredFile) (acc idx : Index) (e : String),
      PromptRegistry.loadAux acc files = (idx, some e) →
      ∃ pre f suf, files = pre ++ f :: suf ∧ f.content = FileContent.malformed ∧
        e = "Error parsing YAML in " ++ f.path ∧
        PromptRegistry.loadAux acc pre = (idx, none) := by
  intro files
  induction files with
  | nil =>
      intro acc idx e h
      simp [PromptRegistry.loadAux] at h
  | cons f fs ih =>
      intro acc idx e h
      unfold PromptRegistry.loadAux at h
      cases hf : PromptRegistry.loadFile acc f with
      | error e0 =>
          rw [hf] at h
          have hidx : acc = idx := congrArg Prod.fst h
          have he : some e0 = some e := congrArg Prod.snd h
          have he2 : e0 = e := Option.some.inj he
          have hmal : f.content = FileContent.malformed ∧ e0 = "Error parsing YAML in " ++ f.path := by
            unfold PromptRegistry.loadFile at hf
            cases hc : f.content with
            | malformed =>
                rw [hc] at hf
                simp at hf
                exact ⟨rfl, hf.symm⟩
            | empty => rw [hc] at hf; simp at hf
            | doc d => rw [hc] at hf; simp at hf
          exact ⟨[], f, fs, rfl, hmal.1, he2 ▸ hmal.2, by
            simp [PromptRegistry.loadAux, hidx]⟩
      | ok acc' =>
          rw [hf] at h
          obtain ⟨pre, g, suf, hsplit, hmal, hmsg, hpre⟩ := ih acc' idx e h
          refine ⟨f :: pre, g, suf, by rw [hsplit]; rfl, hmal, hmsg, ?_⟩
          unfold PromptRegistry.loadAux
          rw [hf]
          exact hpre

/-- C2 counterexample: with a previous index present, loading one good
file and then a malformed one fails, yet the visible index is neither
the previous index nor empty — it holds exactly the subset processed
before the failure. -/
theorem claim_C2_counterexample :
    (PromptRegistry.load
        [("old", [(1, ⟨"old", "x", 1, "", []⟩)])]
        [⟨"a.yaml", "a", FileContent.doc { name := some "a", version := some 1 }⟩,
         ⟨"bad.yaml", "bad", FileContent.malformed⟩]).2.isSome
    ∧ (PromptRegistry.load
        [("old", [(1, ⟨"old", "x", 1, "", []⟩)])]
        [⟨"a.yaml", "a", FileContent.doc { name := some "a", version := some 1 }⟩,
         ⟨"bad.yaml", "bad", FileContent.malformed⟩]).1
        ≠ [("old", [(1, ⟨"old", "x", 1, "", []⟩)])]
    ∧ (PromptRegistry.load
        [("old", [(1, ⟨"old", "x", 1, "", []⟩)])]
        [⟨"a.yaml", "a", FileContent.doc { name := some "a", version := some 1 }⟩,
         ⟨"bad.yaml", "bad", FileContent.malformed⟩]).1
        ≠ [] := by
  decide

/-- C2 (amended): a failing `load` raises a descriptive error naming
the offending file, the previous index is discarded unconditionally,
and the visible index afterwards holds exactly the documents of the
prefix of files processed before the failing one. -/
theorem claim_C2 (prev : Index) (files : List StoredFile) (idx : Index) (e : String)
    (h : PromptRegistry.load prev files = (idx, some e)) :
    ∃ pre f suf, files = pre ++ f :: suf ∧ f.content = FileContent.malformed ∧
      e = "Error parsing YAML in " ++ f.path ∧
      PromptRegistry.loadAux [] pre = (idx, none) :=
  loadAux_error_decomp files [] idx e h

/-- Witness for C2 at a two-file directory whose second file is
malformed. -/
theorem claim_C2_witness :
    ∃ pre f suf,
      ([⟨"a.yaml", "a", FileContent.doc { name := some "a", version := some 1 }⟩,
        ⟨"bad.yaml", "bad", FileContent.malformed⟩] : List StoredFile)
        = pre ++ f :: suf ∧ f.content = FileContent.malformed ∧
      "Error parsing YAML in bad.yaml" = "Error parsing YAML in " ++ f.path ∧
      PromptRegistry.loadAux [] pre
        = ([("a", [(1, ⟨"a", "", 1, "", []⟩)])], none) :=
  claim_C2 [("old", [(1, ⟨"old", "x", 1, "", []⟩)])]
    [⟨"a.yaml", "a", FileContent.doc { name := some "a", version := some 1 }⟩,
     ⟨"bad.yaml", "bad", FileContent.malformed⟩]
    [("a", [(1, ⟨"a", "", 1, "", []⟩)])] "Error parsing YAML in bad.yaml" (by decide)

/-- C3 counterexample: `create_prompt` on a directory already holding
`p.yaml` returns normally (no already-exists error) and silently
replaces the stored document's body. -/
theorem claim_C3_counterexample :
    (PromptRegistry.create_prompt
        [("p.yaml", { name := some "p", version := some 1, description := some "",
                      vars := some [], template := some "OLD" })]
        "p" "NEW" "" [] 1).fs
      = [("p.yaml", { name := some "p", version := some 1, description := some "",
                      vars := some [], template := some "NEW" })]
    ∧ (PromptRegistry.create_prompt
        [("p.yaml", { name := some "p", version := some 1, description := some "",
                      vars := some [], template := some "OLD" })]
        "p" "NEW" "" [] 1).path = "p.yaml" := by
  decide

/-- C3 (amended): `create_prompt` performs no existence check: it
unconditionally writes the built document at the computed file name,
overwriting any file already there, and calling it twice with the same
arguments succeeds both times, the second call reproducing the first
call's file system, index and path. -/
theorem claim_C3 (fs : PromptRegistry.FileSystem) (name template description : String)
    (variableSpecs : List (String × VarSpecDoc)) (version : Int) :
    lookupA (PromptRegistry.create_prompt fs name template description variableSpecs version).fs
        (PromptRegistry.createFilename name version)
      = some { name := some name, version := some version, description := some description,
               vars := some (variableSpecs.map (fun p => (p.1, VarSpecRaw.spec p.2))),
               template := some template }
    ∧ (PromptRegistry.create_prompt
        (PromptRegistry.create_prompt fs name template description variableSpecs version).fs
        name template description variableSpecs version)
      = PromptRegistry.create_prompt fs name template description variableSpecs version := by
  constructor
  · exact lookupA_insertA_self fs (PromptRegistry.createFilename name version) _
  · simp only [PromptRegistry.create_prompt]
    rw [insertA_insertA_same]

/-- C8: each loaded document is indexed under `[name][version]`,
overwriting any earlier entry at that exact pair; a document with the
sentinel name is indexed under the file's base name; and the two-file
scenario (`a.yaml` with the name omitted at version 1, `a_v2.yaml`
naming "a" at version 2) yields versions [1, 2], latest 2, and version
1 rendering its own body. -/
theorem claim_C8 :
    (∀ (idx : Index) (n : String) (v : Int) (t : PromptTemplate),
      PromptRegistry.get (PromptRegistry.indexInsert idx n v t) n (some v) = some t) ∧
    (∀ (idx : Index) (path stem : String) (d : TemplateDoc),
      PromptRegistry.loadFile idx ⟨path, stem, FileContent.doc { d with name := none }⟩
        = Except.ok (PromptRegistry.indexInsert idx stem
            (PromptTemplate.from_dict { d with name := none }).version
            { PromptTemplate.from_dict { d with name := none } with name := stem })) ∧
    ((PromptRegistry.load []
        [⟨"a.yaml", "a", FileContent.doc
            { version := some 1, template := some "Hi {{ x }}",
              vars := some [("x", VarSpecRaw.spec { required := some true })] }⟩,
         ⟨"a_v2.yaml", "a_v2", FileContent.doc
            { name := some "a", version := some 2, template := some "Bye {{ x }}",
              vars := some [("x", VarSpecRaw.spec { required := some true })] }⟩]).2 = none
     ∧ PromptRegistry.list_versions
        (PromptRegistry.load []
          [⟨"a.yaml", "a", FileContent.doc
              { version := some 1, template := some "Hi {{ x }}",
                vars := some [("x", VarSpecRaw.spec { required := some true })] }⟩,
           ⟨"a_v2.yaml", "a_v2", FileContent.doc
              { name := some "a", version := some 2, template := some "Bye {{ x }}",
                vars := some [("x", VarSpecRaw.spec { required := some true })] }⟩]).1 "a"
        = [1, 2]
     ∧ (PromptRegistry.get
          (PromptRegistry.load []
            [⟨"a.yaml", "a", FileContent.doc
                { version := some 1, template := some "Hi {{ x }}",
                  vars := some [("x", VarSpecRaw.spec { required := some true })] }⟩,
             ⟨"a_v2.yaml", "a_v2", FileContent.doc
                { name := some "a", version := some 2, template := some "Bye {{ x }}",
                  vars := some [("x", VarSpecRaw.spec { required := some true })] }⟩]).1
          "a" none).map PromptTemplate.version = some 2
     ∧ (PromptRegistry.get
          (PromptRegistry.load []
            [⟨"a.yaml", "a", FileContent.doc
                { version := some 1, template := some "Hi {{ x }}",
                  vars := some [("x", VarSpecRaw.spec { required := some true })] }⟩,
             ⟨"a_v2.yaml", "a_v2", FileContent.doc
                { name := some "a", version := some 2, template := some "Bye {{ x }}",
                  vars := some [("x", VarSpecRaw.spec { required := some true })] }⟩]).1
          "a" (some 1)).map (fun t => t.render [("x", "yo")])
        = some (Except.ok "Hi yo")) := by
  refine ⟨?_, ?_, ?_, ?_, ?_, ?_⟩
  · intro idx n v t
    unfold PromptRegistry.get PromptRegistry.indexInsert
    cases hl : lookupA idx n with
    | none =>
        rw [lookupA_insertA_self]
        simp [lookupA_cons]
    | some vm =>
        rw [lookupA_insertA_self]
        simp [lookupA_insertA_self]
  · intro idx path stem d
    rfl
  · rfl
  · rfl
  · rfl
  · rfl

end PromptRegistryModel
